import Mathlib

/-!
Verification of the process/syscall core of a small ARMv8 kernel
(process table, fork/exit/wait lifecycle, syscall dispatch and
argument marshalling), shallowly embedded from kern/syscall.c (which
also contains the process-table code) and kern/sysproc.c.

Machine integers are modelled as Nat/Int with explicit wrap at the
relevant width where overflow matters.  External collaborators
(uvm_alloc, uvm_copy, kalloc, execve, ...) are oracle parameters: the
embedded functions are parametric in their results exactly where the C
code consumes their return values.
-/

namespace XV6

/-- The `2 ^ 64` wrap modulus for C `uint64_t` arithmetic. -/
def W64 : Nat := 2 ^ 64

/-- Process states, from the proc.h enum used by kern/syscall.c:
UNUSED, EMBRYO, SLEEPING, RUNNABLE, RUNNING, ZOMBIE. -/
inductive ProcState where
  | UNUSED
  | EMBRYO
  | SLEEPING
  | RUNNABLE
  | RUNNING
  | ZOMBIE
deriving DecidableEq, Repr

/-- A trap frame: the saved user-mode register file.  `reg i` is the
64-bit word at offset `i` (in 8-byte words) from the field x0, so
`reg 0` is x0, `reg 8` is x8, and a negative index models C pointer
arithmetic that walks below x1 into the preceding words of the
struct (argint does `&tf->x1 + n` with a possibly negative int `n`). -/
structure Trapframe where
  reg : Int → Nat

/-- Register x0 of a trap frame (the return-value register). -/
def Trapframe.x0 (tf : Trapframe) : Nat := tf.reg 0

/-- Register x8 of a trap frame (the syscall-number register). -/
def Trapframe.x8 (tf : Trapframe) : Nat := tf.reg 8

/-- NOFILE, the size of the per-process open-file array.  The header
defining it is not part of the sources here; the xv6 default is 16.
No claim depends on its value. -/
def NOFILE : Nat := 16

/-- A process-table slot (struct proc).  Pointers that are only
tested against NULL or handed to collaborators are modelled as
`Option Nat` handles; `chan` is a raw pointer value compared for
identity, with 0 for NULL.  `ofile` maps a file-descriptor index to
the file handle stored there (none = null pointer), `name` maps a
byte index into the 16-byte debug-name array to the byte stored
there. -/
structure Proc where
  pid : Int
  state : ProcState
  killed : Nat
  xstate : Int
  chan : Nat
  sz : Nat
  pgdir : Option Nat
  kstack : Option Nat
  tf : Option Trapframe
  context : Option Nat
  ofile : Nat → Option Nat
  cwd : Option Nat
  name : Nat → Nat
  parent : Option Nat

instance : Inhabited Proc :=
  ⟨{ pid := 0, state := .UNUSED, killed := 0, xstate := 0, chan := 0, sz := 0,
     pgdir := none, kstack := none, tf := none, context := none,
     ofile := fun _ => none, cwd := none, name := fun _ => 0, parent := none }⟩

/-- proc_free, from kern/syscall.c: clears chan, killed, xstate, pid,
parent; kfrees and clears kstack; zeroes sz; vm_frees and clears
pgdir; clears tf; writes a NUL into name[0]; sets state to UNUSED.
(kfree and vm_free act on the collaborator side and do not change the
slot beyond the pointer clears.)  It does not touch ofile or cwd. -/
def proc_free (p : Proc) : Proc :=
  { p with
    chan := 0
    killed := 0
    xstate := 0
    pid := 0
    parent := none
    kstack := none
    sz := 0
    pgdir := none
    tf := none
    name := fun i => if i = 0 then 0 else p.name i
    state := .UNUSED }

/-- A concrete slot with an open file descriptor and a cwd reference
attached, used to exhibit what proc_free leaves behind. -/
def procWithFiles : Proc :=
  { pid := 7, state := .ZOMBIE, killed := 0, xstate := 3, chan := 0, sz := 4096,
    pgdir := some 10, kstack := some 11, tf := none, context := none,
    ofile := fun i => if i = 0 then some 5 else none, cwd := some 9,
    name := fun _ => 0, parent := none }

/-- User memory is a byte store: `mem a` is the byte at user-virtual
address `a`.  While a syscall runs, user addresses are directly
loadable, bounded only by the range check against the slot's sz. -/
def Mem : Type := Nat → Nat

/-- The little-endian 64-bit word formed by the 8 bytes at `a`,
modelling the C load `*(int64_t*)a`. -/
def wordAt (mem : Mem) (a : Nat) : Nat :=
  mem a + 256 * (mem (a + 1) + 256 * (mem (a + 2) + 256 * (mem (a + 3) +
    256 * (mem (a + 4) + 256 * (mem (a + 5) + 256 * (mem (a + 6) +
    256 * mem (a + 7)))))))

/-- fetchint, from kern/syscall.c: fails (returns -1, modelled as
none) when `addr >= sz` or `addr + 8 > sz` (the sum wrapping at 64
bits as in C), otherwise reads the 8-byte word at addr. -/
def fetchint (mem : Mem) (sz addr : Nat) : Option Nat :=
  if sz ≤ addr ∨ sz < (addr + 8) % W64 then none
  else some (wordAt mem addr)

/-- The scan loop of fetchstr: starting at position `s` with `fuel`
bytes left before the end of user memory, return the position of the
first NUL byte, or none if the end is reached first. -/
def scanNul (mem : Mem) : Nat → Nat → Option Nat
  | 0, _ => none
  | fuel + 1, s => if mem s = 0 then some s else scanNul mem fuel (s + 1)

/-- fetchstr, from kern/syscall.c: fails when `addr >= sz`; otherwise
scans `[addr, sz)` for a NUL byte and returns the string length
(position of the NUL minus addr), failing if no NUL is found. -/
def fetchstr (mem : Mem) (sz addr : Nat) : Option Nat :=
  if sz ≤ addr then none
  else (scanNul mem (sz - addr) addr).map (fun s => s - addr)

/-- The outcome of argint: either the fatal panic path or a normal
return of 0 with the fetched value. -/
inductive ArgintRes where
  | panicked
  | ok (v : Nat)
deriving DecidableEq, Repr

/-- argint, from kern/syscall.c: panics when `n > 3`; otherwise reads
the word `*(&tf->x1 + n)`, i.e. the trap-frame word at offset
`1 + n` from x0 (for n in [0,3] these are x1..x4; a negative n walks
below x1 without any check). -/
def argint (tf : Trapframe) (n : Int) : ArgintRes :=
  if 3 < n then .panicked else .ok (tf.reg (1 + n))

/-- A concrete trap frame whose x0 holds 42 and whose other words are
zero. -/
def tfX0is42 : Trapframe :=
  ⟨fun i => if i = 0 then 42 else 0⟩

/-- The syscall numbers at which the designated-initializer table
`syscalls[]` in kern/syscall.c has a non-null entry.  The SYS_*
values come from the included syscall.h (the Linux aarch64
asm-generic numbering, not part of src/): set_tid_address 96,
gettid 178, ioctl 29, rt_sigprocmask 135, brk 214, execve 221,
sched_yield 124, clone 220, wait4 260, exit_group 94, exit 93,
dup 23, chdir 49, fstat 80, newfstatat 79, mkdirat 34, mknodat 33,
openat 56, writev 66, read 63, close 57. -/
def syscallNums : List Nat :=
  [96, 178, 29, 135, 214, 221, 124, 220, 260, 94, 93,
   23, 49, 80, 79, 34, 33, 56, 66, 63, 57]

/-- ARRAY_SIZE(syscalls): the largest designated index (SYS_wait4 =
260) plus one. -/
def syscallsSize : Nat := 261

/-- Whether `syscalls[n]` is a non-null table entry. -/
def syscallDefined (n : Nat) : Bool := syscallNums.contains n

/-- The outcome of syscall1: a normal return with a value written to
tf->x0, or the unknown-syscall path, which logs and then spins in
`while (1);` forever, never returning to the trap handler. -/
inductive Sys1Res where
  | ret (v : Nat)
  | unknownLoop
deriving DecidableEq, Repr

/-- syscall1, from kern/syscall.c: reads the syscall number from
tf->x8; when it is within the table and the entry is non-null the
handler runs and its result is written to tf->x0 and returned (the
handler results are an oracle `handlers`); otherwise the
unknown-syscall path is taken.  The `sysno >= 0` test in the source
is vacuous since sysno is a uint64_t. -/
def syscall1 (handlers : Nat → Nat) (tf : Trapframe) : Sys1Res :=
  let sysno := tf.x8
  if sysno < syscallsSize ∧ syscallDefined sysno then .ret (handlers sysno)
  else .unknownLoop

/-- MAXARG, the size of the argv array in sys_exec.  Its defining
header is not in src/; the spec gives the xv6 value 32. -/
def MAXARG : Nat := 32

/-- The argument-parsing loop of sys_exec, from kern/sysproc.c.  At
index `i`: fail when `i >= MAXARG` (the "too many arguments" path);
fetch the word at `uargv + 8*i`, failing if fetchint fails; stop with
the collected pointer list when the word is 0 (argv[i] = NULL); else
require fetchstr to succeed on it and record it as argv[i].  `fuel`
bounds the recursion and is kept at `MAXARG + 1 - i`, so it never
runs out before the `i >= MAXARG` test fires. -/
def execArgs (mem : Mem) (sz uargv : Nat) : Nat → Nat → Option (List Nat)
  | _, 0 => none
  | i, fuel + 1 =>
    if MAXARG ≤ i then none
    else
      match fetchint mem sz (uargv + 8 * i) with
      | none => none
      | some uarg =>
        if uarg = 0 then some []
        else
          match fetchstr mem sz uarg with
          | none => none
          | some _ => (execArgs mem sz uargv (i + 1) fuel).map (fun l => uarg :: l)

/-- sys_exec, from kern/sysproc.c: argstr(0) fetches the path string
at the address in x1, argint(1) reads the argv-array address from x2
(neither argint call can fail for n in [0,3]); then the argument
loop runs and, on success, execve is invoked on the path pointer and
the fetched argument pointers (execve's result is an oracle). -/
def sys_exec (execveRes : Nat → List Nat → Int) (mem : Mem) (sz : Nat)
    (tf : Trapframe) : Int :=
  match fetchstr mem sz (tf.reg 1) with
  | none => -1
  | some _ =>
    match execArgs mem sz (tf.reg 2) 0 (MAXARG + 1) with
    | none => -1
    | some args => execveRes (tf.reg 1) args

/-- A user memory holding, at byte address 1, an empty
NUL-terminated string, and at word addresses 8, 16, ..., 256 the
pointer value 1 (32 consecutive non-null argv entries), with zero
words from address 264 on (the NULL terminator).  Bytes at positions
that are not the low byte of one of those words are 0. -/
def memManyArgs : Mem :=
  fun a => if a % 8 = 0 ∧ 8 ≤ a ∧ a ≤ 256 then 1 else 0

/-- A trap frame for exec whose x1 (path) is 1 and whose x2 (argv
array base) is 8. -/
def tfExec : Trapframe :=
  ⟨fun i => if i = 1 then 1 else if i = 2 then 8 else 0⟩

/-- growproc, from kern/syscall.c.  The VM collaborators are oracles:
`uvmAlloc pgdir oldsz newsz` and `uvmDealloc pgdir oldsz newsz`
return the new size, or 0 for failure, exactly as the C functions
do.  On `n > 0` uvm_alloc grows to `sz + n`; on `n < 0` uvm_dealloc
shrinks to `sz + n` (the sum computed in uint64 arithmetic); a zero
result makes growproc return -1 without touching the process, and
otherwise p->sz is updated and 0 returned (uvm_switch only reloads
the page tables). -/
def growproc (uvmAlloc uvmDealloc : Option Nat → Nat → Nat → Nat)
    (p : Proc) (n : Int) : Proc × Int :=
  let sz := p.sz
  let newsz := (((sz : Int) + n) % (W64 : Int)).toNat
  if 0 < n then
    let sz2 := uvmAlloc p.pgdir sz newsz
    if sz2 = 0 then (p, -1) else ({ p with sz := sz2 }, 0)
  else if n < 0 then
    let sz2 := uvmDealloc p.pgdir sz newsz
    if sz2 = 0 then (p, -1) else ({ p with sz := sz2 }, 0)
  else (p, 0)

/-- Reinterpret a machine word as a 32-bit two's-complement signed
value, modelling C truncation to int (with the conventional
wraparound behaviour for the overflowing increment). -/
def toSigned32 (n : Nat) : Int :=
  if n % 2 ^ 32 < 2 ^ 31 then (n % 2 ^ 32 : Nat) else (n % 2 ^ 32 : Nat) - 2 ^ 32

/-- sys_brk, from kern/sysproc.c: argint(0) reads x1 into the
uint64_t n (this cannot fail), the current size is saved, growproc
runs on n converted to a C int, and the call returns -1 when
growproc reports failure and the saved previous size otherwise. -/
def sys_brk (uvmAlloc uvmDealloc : Option Nat → Nat → Nat → Nat)
    (p : Proc) : Proc × Int :=
  let n := toSigned32 ((p.tf.getD ⟨fun _ => 0⟩).reg 1)
  let addr := p.sz
  let pr := growproc uvmAlloc uvmDealloc p n
  if pr.2 < 0 then (pr.1, -1) else (pr.1, (addr : Int))

/-- The value returned by the k-th call (counting from 0) to
pid_next: nextpid is a C int starting at 1 and post-incremented
under pid_lock, so call k returns 1 + k wrapped to a signed 32-bit
value. -/
def pidAt (k : Nat) : Int := toSigned32 (1 + k)

/-- The address of forkret, stored into the saved x30 of a fresh
slot's context so that its first scheduling runs forkret.  Its
numeric value is irrelevant to every claim. -/
def forkretAddr : Nat := 1

/-- One step of the proc_alloc scan over the table suffix, from
kern/syscall.c.  `kallocRes` is the kalloc oracle (none = out of
pages) and `npid` the value pid_next would mint.  For each slot: a
non-UNUSED slot is skipped; the first UNUSED slot gets the fresh
pid, and then either kalloc fails — the slot is proc_freed in place
and the scan reports failure — or the kernel stack is installed, the
trap frame and context are carved from it (the trap-frame contents
are uninitialized at this point, modelled as the all-zero register
file), the context's x30 is set to forkret, and the slot becomes
EMBRYO.  Returns the updated table suffix and the index of the
allocated slot within it, if any. -/
def proc_alloc_scan (kallocRes : Option Nat) (npid : Int) :
    List Proc → List Proc × Option Nat
  | [] => ([], none)
  | p :: rest =>
    if p.state = .UNUSED then
      match kallocRes with
      | none => (proc_free { p with pid := npid } :: rest, none)
      | some stk =>
        ({ p with
            pid := npid
            kstack := some stk
            tf := some ⟨fun _ => 0⟩
            context := some forkretAddr
            state := .EMBRYO } :: rest, some 0)
    else
      let r := proc_alloc_scan kallocRes npid rest
      (p :: r.1, r.2.map (fun i => i + 1))

/-- The mutable kernel state the process-table code acts on: the
slot table (NPROC entries) and the pid counter (a C int, stored as
the mathematical value minted next; pid_next wraps it via
toSigned32). -/
structure KState where
  ptable : List Proc
  nextpid : Nat

/-- proc_alloc, from kern/syscall.c: scan the table for an UNUSED
slot; when one is found pid_next is consumed (nextpid advances even
if kalloc then fails).  Returns the new state and the index of the
allocated slot, which is returned with its lock still held. -/
def proc_alloc (kallocRes : Option Nat) (st : KState) : KState × Option Nat :=
  let r := proc_alloc_scan kallocRes (toSigned32 st.nextpid) st.ptable
  match r.2 with
  | none =>
    ({ ptable := r.1,
       nextpid := if st.ptable.any (fun p => p.state = .UNUSED)
                  then st.nextpid + 1 else st.nextpid }, none)
  | some i => ({ ptable := r.1, nextpid := st.nextpid + 1 }, some i)

/-- strncpy with size 16, as fork uses on the debug name: byte i of
the destination is byte i of the source until the source's first
NUL, and 0 from there on (the source pointer stops advancing at the
NUL), with bytes past index 15 left as in the destination. -/
def strncpy16 (src dst : Nat → Nat) : Nat → Nat :=
  fun i =>
    if i < 16 then (if ∃ j ≤ i, j < 16 ∧ src j = 0 then 0 else src i)
    else dst i

/-- fork, from kern/syscall.c.  Oracles: `kallocRes` feeds
proc_alloc, and `uvmCopyRes` is the result of
uvm_copy(parent pgdir, child pgdir, parent sz).  `pi` is the index
of the calling (parent) process.  On allocation failure fork returns
-1; when uvm_copy fails the child is proc_freed (still under its
lock) and fork returns -1; otherwise the child receives the
parent's sz, a copy of the parent's trap frame with x0 forced to 0,
duplicated open-file handles (file_dup returns its argument) and
cwd (idup likewise), the copied name, its parent pointer set under
wait_lock, and state RUNNABLE, and fork returns the child's pid as
recorded before the child lock was released. -/
def fork (kallocRes : Option Nat) (uvmCopyRes : Int) (pi : Nat)
    (st : KState) : KState × Int :=
  let ar := proc_alloc kallocRes st
  match ar.2 with
  | none => (ar.1, -1)
  | some ni =>
    let np := ar.1.ptable.getD ni default
    let p := ar.1.ptable.getD pi default
    if uvmCopyRes < 0 then
      ({ ar.1 with ptable := ar.1.ptable.set ni (proc_free np) }, -1)
    else
      let ptf := p.tf.getD ⟨fun _ => 0⟩
      let np2 :=
        { np with
            sz := p.sz
            tf := some ⟨fun i => if i = 0 then 0 else ptf.reg i⟩
            ofile := fun i =>
              if i < NOFILE ∧ (p.ofile i).isSome then p.ofile i else np.ofile i
            cwd := p.cwd
            name := strncpy16 p.name np.name
            parent := some pi
            state := .RUNNABLE }
      ({ ar.1 with ptable := ar.1.ptable.set ni np2 }, np.pid)

/-- The spinlocks of the process core: each slot's lock, the global
wait_lock, and pid_lock. -/
inductive KLock where
  | slot (i : Nat)
  | waitL
  | pidL
deriving DecidableEq, Repr

/-- Lock-relevant events on a code path: acquire, release, and a
call to proc_free on a slot. -/
inductive KAct where
  | acq (l : KLock)
  | rel (l : KLock)
  | freeCall (i : Nat)
deriving DecidableEq, Repr

/-- The set of locks held at the first proc_free(slots[i]) call of a
path, given the locks already held at its start. -/
def heldAtFree (i : Nat) : List KAct → List KLock → Option (List KLock)
  | [], _ => none
  | .acq l :: r, held => heldAtFree i r (l :: held)
  | .rel l :: r, held => heldAtFree i r (held.erase l)
  | .freeCall j :: r, held =>
    if j = i then some held else heldAtFree i r held

/-- The lock events on proc_alloc's kalloc-failure path for slot i,
read off kern/syscall.c: acquire(p->lock); pid_next (acquire and
release pid_lock); kalloc fails; proc_free(p); release(p->lock). -/
def procAllocFailPath (i : Nat) : List KAct :=
  [.acq (.slot i), .acq .pidL, .rel .pidL, .freeCall i, .rel (.slot i)]

/-- The lock events on fork's uvm_copy-failure path for child slot
i: proc_alloc succeeds (acquires the child lock, cycles pid_lock,
returns holding the child lock); uvm_copy fails; proc_free(np);
release(np->lock). -/
def forkFailPath (i : Nat) : List KAct :=
  [.acq (.slot i), .acq .pidL, .rel .pidL, .freeCall i, .rel (.slot i)]

/-- The lock events on wait's reaping path for zombie child slot c,
read off kern/syscall.c: acquire(wait_lock); the scan finds the
ZOMBIE child without acquiring its lock; proc_free(np);
release(wait_lock). -/
def waitReapPath (c : Nat) : List KAct :=
  [.acq .waitL, .freeCall c, .rel .waitL]

/-- Whether the slot lock of slot i is held at the proc_free call of
a path started with no locks held. -/
def slotLockHeldAtFree (path : List KAct) (i : Nat) : Bool :=
  match heldAtFree i path [] with
  | none => false
  | some held => held.contains (.slot i)

/-- A concrete slot for exercising sys_brk: procWithFiles with a
trap frame whose x1 (the brk argument) is 5. -/
def procBrk : Proc :=
  { procWithFiles with tf := some ⟨fun i => if i = 1 then 5 else 0⟩ }

/-- A user memory with two non-null argv entries: the words at 8 and
16 hold the pointer 1, the word at 24 is the NULL terminator, and
byte 1 is a NUL so that the (empty) strings at address 1 are valid. -/
def memTwoArgs : Mem :=
  fun a => if a = 8 ∨ a = 16 then 1 else 0

/- ------------------------------------------------------------------
Theorems.
------------------------------------------------------------------ -/

/-- Claim C2 (counterexample): proc_free on a slot holding an open
file handle and a cwd reference sets the state to UNUSED but leaves
both the file-descriptor pointer and the cwd reference in place, so
the claim that proc_free clears ofile[*] and cwd is false. -/
theorem proc_free_ofile_cwd_cex :
    (proc_free procWithFiles).state = ProcState.UNUSED ∧
    (proc_free procWithFiles).ofile 0 ≠ none ∧
    (proc_free procWithFiles).cwd ≠ none := by
  refine ⟨rfl, ?_, ?_⟩ <;> simp [proc_free, procWithFiles]

/-- Claim C2 (amended): proc_free(s) leaves s.state == UNUSED and
clears kstack, pgdir, tf, pid, sz and the name, but it does not
touch the ofile array or the cwd reference (those are cleared by
exit, not by proc_free). -/
theorem proc_free_amended (p : Proc) :
    (proc_free p).state = ProcState.UNUSED ∧
    (proc_free p).kstack = none ∧
    (proc_free p).pgdir = none ∧
    (proc_free p).tf = none ∧
    (proc_free p).pid = 0 ∧
    (proc_free p).sz = 0 ∧
    (proc_free p).name 0 = 0 ∧
    (proc_free p).ofile = p.ofile ∧
    (proc_free p).cwd = p.cwd :=
  ⟨rfl, rfl, rfl, rfl, rfl, rfl, by simp [proc_free], rfl, rfl⟩

/-- Claim C5 (counterexample): argint only checks n > 3, so the
out-of-range index -1 is not fatal: argint(-1, out) returns 0 after
reading the word below x1 (here x0, which holds 42).  The claim that
every n outside [0,3] panics is therefore false. -/
theorem argint_negative_cex :
    argint tfX0is42 (-1) = ArgintRes.ok 42 ∧
    argint tfX0is42 (-1) ≠ ArgintRes.panicked := by
  constructor <;> decide

/-- Claim C5 (amended): argint(n, out) panics exactly when n > 3
(in particular argint(4, ...) panics); for every n ≤ 3 — including
negative n — it returns 0 with the trap-frame word at offset
x1 + n. -/
theorem argint_amended (tf : Trapframe) (n : Int) :
    (3 < n → argint tf n = ArgintRes.panicked) ∧
    (n ≤ 3 → argint tf n = ArgintRes.ok (tf.reg (1 + n))) := by
  constructor <;> intro h
  · rw [argint, if_pos h]
  · rw [argint, if_neg (not_lt.mpr h)]

/-- Witness for the amended C5 claim at n = 4 and n = 2. -/
theorem argint_amended_witness :
    argint tfX0is42 4 = ArgintRes.panicked ∧
    argint tfX0is42 2 = ArgintRes.ok 0 := by
  refine ⟨(argint_amended tfX0is42 4).1 (by decide), ?_⟩
  have h := (argint_amended tfX0is42 2).2 (by decide)
  simpa [tfX0is42] using h

/-- Claim C6 (counterexample): fetchint uses the strict test
addr + 8 > sz, so with sz = 16 the access at addr = 8 — where
addr + 8 equals sz — succeeds (all eight bytes read lie below sz).
The claim that fetchint fails when addr + 8 equals slot.sz is
therefore false. -/
theorem fetchint_boundary_cex :
    fetchint (fun _ => 5) 16 8 ≠ none := by
  decide

/-- Claim C6 (amended): for every address with no 64-bit wrap in
addr + 8, fetchint succeeds exactly when addr < sz and
addr + 8 ≤ sz (so the boundary case addr + 8 = sz succeeds), and on
that range the result depends only on the 8 bytes at
addr..addr+7 — fetchint reads exactly 8 bytes at addr. -/
theorem fetchint_amended (mem : Mem) (sz addr : Nat) (h : addr + 8 < W64) :
    ((fetchint mem sz addr).isSome = true ↔ (addr < sz ∧ addr + 8 ≤ sz)) ∧
    (∀ mem2 : Mem, (∀ k, k < 8 → mem2 (addr + k) = mem (addr + k)) →
      fetchint mem2 sz addr = fetchint mem sz addr) := by
  constructor
  · rw [fetchint, Nat.mod_eq_of_lt h]
    by_cases hc : sz ≤ addr ∨ sz < addr + 8
    · simp only [if_pos hc, Option.isSome_none]
      constructor
      · intro hfalse; cases hfalse
      · intro hrange; omega
    · simp only [if_neg hc, Option.isSome_some]
      constructor
      · intro _; omega
      · intro _; trivial
  · intro mem2 hag
    have h0 : mem2 addr = mem addr := hag 0 (by omega)
    have h1 : mem2 (addr + 1) = mem (addr + 1) := hag 1 (by omega)
    have h2 : mem2 (addr + 2) = mem (addr + 2) := hag 2 (by omega)
    have h3 : mem2 (addr + 3) = mem (addr + 3) := hag 3 (by omega)
    have h4 : mem2 (addr + 4) = mem (addr + 4) := hag 4 (by omega)
    have h5 : mem2 (addr + 5) = mem (addr + 5) := hag 5 (by omega)
    have h6 : mem2 (addr + 6) = mem (addr + 6) := hag 6 (by omega)
    have h7 : mem2 (addr + 7) = mem (addr + 7) := hag 7 (by omega)
    rw [fetchint, fetchint, wordAt, wordAt, h0, h1, h2, h3, h4, h5, h6, h7]

/-- Witness for the amended C6 claim at the boundary input sz = 16,
addr = 8. -/
theorem fetchint_amended_witness :
    (fetchint (fun _ => 3) 16 8).isSome = true :=
  ((fetchint_amended (fun _ => 3) 16 8 (by norm_num [W64])).1).mpr
    ⟨by norm_num, by norm_num⟩

/-- Case analysis on growproc: either it fails, returning -1 and
leaving the process record (in particular sz) untouched, or it
returns 0. -/
theorem growproc_cases (A D : Option Nat → Nat → Nat → Nat)
    (p : Proc) (n : Int) :
    ((growproc A D p n).2 = -1 ∧ (growproc A D p n).1 = p) ∨
    (growproc A D p n).2 = 0 := by
  rw [growproc]
  by_cases h1 : 0 < n
  · simp only [if_pos h1]
    by_cases h2 : A p.pgdir p.sz (((p.sz : Int) + n) % (W64 : Int)).toNat = 0
    · simp [h2]
    · simp [h2]
  · simp only [if_neg h1]
    by_cases h3 : n < 0
    · simp only [if_pos h3]
      by_cases h4 : D p.pgdir p.sz (((p.sz : Int) + n) % (W64 : Int)).toNat = 0
      · simp [h4]
      · simp [h4]
    · simp [h3]

/-- Claim C3: whenever growproc(n) fails (returns -1, because the VM
module's uvm_alloc or uvm_dealloc reported failure), the current
process's sz field is unchanged. -/
theorem growproc_fail_sz_unchanged (A D : Option Nat → Nat → Nat → Nat)
    (p : Proc) (n : Int) (h : (growproc A D p n).2 = -1) :
    (growproc A D p n).1.sz = p.sz := by
  rcases growproc_cases A D p n with ⟨_, hp⟩ | h0
  · rw [hp]
  · rw [h0] at h; cases h

/-- Witness for C3: an always-failing uvm_alloc oracle at n = 5
makes growproc return -1 with sz unchanged. -/
theorem growproc_fail_witness :
    (growproc (fun _ _ _ => 0) (fun _ _ _ => 0) procWithFiles 5).2 = -1 ∧
    (growproc (fun _ _ _ => 0) (fun _ _ _ => 0) procWithFiles 5).1.sz =
      procWithFiles.sz := by
  have h2 : (growproc (fun _ _ _ => 0) (fun _ _ _ => 0) procWithFiles 5).2 = -1 := by
    rw [growproc]; norm_num
  exact ⟨h2, growproc_fail_sz_unchanged _ _ _ _ h2⟩

/-- Claim C4: whenever the trap frame's x8 is outside the dispatch
table or indexes a null entry, syscall1 takes the unknown-syscall
path, which logs and then spins forever (modelled by the
unknownLoop outcome), never returning a value to its caller. -/
theorem syscall1_unknown_loops (handlers : Nat → Nat) (tf : Trapframe)
    (h : syscallsSize ≤ tf.x8 ∨ syscallDefined tf.x8 = false) :
    syscall1 handlers tf = Sys1Res.unknownLoop := by
  rw [syscall1]
  rcases h with h | h
  · rw [if_neg]
    intro hc
    exact absurd hc.1 (not_lt.mpr h)
  · rw [if_neg]
    intro hc
    rw [h] at hc
    exact absurd hc.2 (by simp)

/-- Witness for C4: syscall number 0 (io_setup) has no table entry,
so syscall1 diverges on it. -/
theorem syscall1_unknown_witness :
    syscall1 (fun _ => 0) ⟨fun _ => 0⟩ = Sys1Res.unknownLoop :=
  syscall1_unknown_loops (fun _ => 0) ⟨fun _ => 0⟩ (Or.inr (by decide))

/-- Claim C10: sys_brk returns -1 exactly on the failing paths and
then leaves the process's sz unchanged; whenever it does not return
-1 its return value is the size the address space had before the
call.  (The argument fetch, argint(0), cannot fail, so growproc is
the only failure source.) -/
theorem sys_brk_spec (A D : Option Nat → Nat → Nat → Nat) (p : Proc) :
    ((sys_brk A D p).2 = -1 → (sys_brk A D p).1.sz = p.sz) ∧
    ((sys_brk A D p).2 ≠ -1 → (sys_brk A D p).2 = (p.sz : Int)) := by
  rw [sys_brk]
  rcases growproc_cases A D p
      (toSigned32 ((p.tf.getD ⟨fun _ => 0⟩).reg 1)) with ⟨hr, hp⟩ | h0
  · rw [hr, hp]
    norm_num
  · rw [h0]
    norm_num
    intro hfalse
    omega

/-- Witness for C10: with a failing uvm_alloc oracle and a brk
argument of 5, sys_brk returns -1 and sz is unchanged. -/
theorem sys_brk_witness :
    (sys_brk (fun _ _ _ => 0) (fun _ _ _ => 0) procBrk).2 = -1 ∧
    (sys_brk (fun _ _ _ => 0) (fun _ _ _ => 0) procBrk).1.sz = procBrk.sz := by
  have h2 : (sys_brk (fun _ _ _ => 0) (fun _ _ _ => 0) procBrk).2 = -1 := by
    rw [sys_brk, growproc]
    norm_num [procBrk, procWithFiles, toSigned32]
  exact ⟨h2, (sys_brk_spec _ _ _).1 h2⟩

/-- Claim C9 (counterexample): nextpid is a C int, so the pid minted
by the (2^31)-th call wraps to a negative value and is smaller than
the pid minted by the call before it — the returned values are not
strictly greater than all previously returned ones, and a pid is
eventually reused. -/
theorem pid_monotonic_cex :
    pidAt (2 ^ 31 - 1) < pidAt (2 ^ 31 - 2) := by
  norm_num [pidAt, toSigned32]

/-- Claim C9 (amended): before the 32-bit counter overflows — for
any two calls i < j with j < 2^31 - 1 — the minted pids are
strictly increasing, positive, and hence never reused over that
range of one boot. -/
theorem pid_monotonic_amended (i j : Nat) (hij : i < j) (hj : j < 2 ^ 31 - 1) :
    0 < pidAt i ∧ pidAt i < pidAt j := by
  rw [pidAt, pidAt, toSigned32, toSigned32]
  have h1 : (1 + i) % 2 ^ 32 = 1 + i := Nat.mod_eq_of_lt (by omega)
  have h2 : (1 + j) % 2 ^ 32 = 1 + j := Nat.mod_eq_of_lt (by omega)
  rw [h1, h2, if_pos (by omega), if_pos (by omega)]
  constructor
  · exact_mod_cast Nat.succ_le_of_lt (by omega)
  · exact_mod_cast (by omega : 1 + i < 1 + j)

/-- Witness for the amended C9 claim at calls 0 and 1. -/
theorem pid_monotonic_amended_witness :
    0 < pidAt 0 ∧ pidAt 0 < pidAt 1 :=
  pid_monotonic_amended 0 1 (by norm_num) (by norm_num)

/-- Claim C8 (code divergence): walking the lock events of the three
proc_free call sites shows the slot's lock held at the proc_alloc
failure path and at fork's uvm_copy failure path, but wait's reaping
path calls proc_free holding only wait_lock — the child slot's lock
is not held there, contradicting proc_free's own stated
precondition. -/
theorem proc_free_lock_discipline :
    slotLockHeldAtFree (procAllocFailPath 2) 2 = true ∧
    slotLockHeldAtFree (forkFailPath 2) 2 = true ∧
    slotLockHeldAtFree (waitReapPath 2) 2 = false := by
  decide

/-- When the argv array has n fetchable non-null entries (each a
valid string pointer) followed by a fetchable NULL, with n below
MAXARG, the exec argument loop started at index i ≤ n collects the
remaining entries. -/
theorem execArgs_complete_aux (mem : Mem) (sz uargv : Nat) (w : Nat → Nat)
    (n : Nat)
    (hfetch : ∀ i, i < n → fetchint mem sz (uargv + 8 * i) = some (w i))
    (hnz : ∀ i, i < n → w i ≠ 0)
    (hstr : ∀ i, i < n → (fetchstr mem sz (w i)).isSome = true)
    (hterm : fetchint mem sz (uargv + 8 * n) = some 0)
    (hn : n < MAXARG) :
    ∀ d i, i ≤ n → d = n - i →
      execArgs mem sz uargv i (MAXARG + 1 - i) =
        some ((List.range (n - i)).map (fun k => w (i + k))) := by
  intro d
  induction d with
  | zero =>
    intro i hi hd
    have hin : i = n := by omega
    subst hin
    have hfuel : MAXARG + 1 - i = (MAXARG - i) + 1 := by omega
    rw [hfuel, execArgs, if_neg (by omega : ¬ MAXARG ≤ i), hterm]
    simp
  | succ d ih =>
    intro i hi hd
    have hin : i < n := by omega
    have hfuel : MAXARG + 1 - i = (MAXARG - i) + 1 := by omega
    rw [hfuel, execArgs, if_neg (by omega : ¬ MAXARG ≤ i), hfetch i hin]
    simp only
    rw [if_neg (hnz i hin)]
    obtain ⟨len, hlen⟩ := Option.isSome_iff_exists.mp (hstr i hin)
    rw [hlen]
    simp only
    have hrec := ih (i + 1) (by omega) (by omega)
    have hfuel2 : MAXARG + 1 - (i + 1) = MAXARG - i := by omega
    rw [hfuel2] at hrec
    rw [hrec]
    have hr : n - i = (n - (i + 1)) + 1 := by omega
    rw [hr, List.range_succ_eq_map, List.map_cons, List.map_map, Option.map_some']
    have hfun : ((fun k => w (i + k)) ∘ Nat.succ) = fun k => w (i + 1 + k) := by
      funext k
      have : i + (k + 1) = i + 1 + k := by omega
      simp [Function.comp, Nat.succ_eq_add_one, this]
    rw [hfun]
    simp

/-- When the first MAXARG argv entries are all fetchable, non-null
and valid strings, the exec argument loop started at any index
i ≤ MAXARG fails: the NULL terminator does not fit in the argv
array. -/
theorem execArgs_overflow_aux (mem : Mem) (sz uargv : Nat) (w : Nat → Nat)
    (hfetch : ∀ i, i < MAXARG → fetchint mem sz (uargv + 8 * i) = some (w i))
    (hnz : ∀ i, i < MAXARG → w i ≠ 0)
    (hstr : ∀ i, i < MAXARG → (fetchstr mem sz (w i)).isSome = true) :
    ∀ d i, i ≤ MAXARG → d = MAXARG - i →
      execArgs mem sz uargv i (MAXARG + 1 - i) = none := by
  intro d
  induction d with
  | zero =>
    intro i hi hd
    have hin : i = MAXARG := by omega
    have hfuel : MAXARG + 1 - i = 0 + 1 := by omega
    rw [hfuel, execArgs, if_pos (by omega : MAXARG ≤ i)]
  | succ d ih =>
    intro i hi hd
    have hin : i < MAXARG := by omega
    have hfuel : MAXARG + 1 - i = (MAXARG - i) + 1 := by omega
    rw [hfuel, execArgs, if_neg (by omega : ¬ MAXARG ≤ i), hfetch i hin]
    simp only
    rw [if_neg (hnz i hin)]
    obtain ⟨len, hlen⟩ := Option.isSome_iff_exists.mp (hstr i hin)
    rw [hlen]
    simp only
    have hrec := ih (i + 1) (by omega) (by omega)
    have hfuel2 : MAXARG + 1 - (i + 1) = MAXARG - i := by omega
    rw [hfuel2] at hrec
    rw [hrec]
    rfl

/-- Claim C7 (counterexample): a NULL-terminated argument array of
exactly MAXARG (= 32) non-null valid string pointers is rejected:
sys_exec returns -1 instead of fetching them all and invoking
execve (here an oracle that would return 7). -/
theorem sys_exec_maxarg_cex :
    sys_exec (fun _ _ => 7) memManyArgs 300 tfExec = -1 := by
  decide

/-- Claim C7 (amended): sys_exec accepts a NULL-terminated array of
at most MAXARG - 1 non-null user string pointers — the NULL
terminator must itself fit in the MAXARG-entry argv array.  With n
< MAXARG non-null fetchable valid string pointers followed by a
fetchable NULL, all n are fetched and passed to execve together
with the path; when the first MAXARG entries are all non-null
(fetchable, valid), sys_exec returns -1. -/
theorem sys_exec_amended (execveRes : Nat → List Nat → Int) (mem : Mem)
    (sz : Nat) (tf : Trapframe) (w : Nat → Nat)
    (hpath : (fetchstr mem sz (tf.reg 1)).isSome = true) :
    (∀ n, n < MAXARG →
      (∀ i, i < n → fetchint mem sz (tf.reg 2 + 8 * i) = some (w i) ∧
        w i ≠ 0 ∧ (fetchstr mem sz (w i)).isSome = true) →
      fetchint mem sz (tf.reg 2 + 8 * n) = some 0 →
      sys_exec execveRes mem sz tf =
        execveRes (tf.reg 1) ((List.range n).map w)) ∧
    ((∀ i, i < MAXARG → fetchint mem sz (tf.reg 2 + 8 * i) = some (w i) ∧
        w i ≠ 0 ∧ (fetchstr mem sz (w i)).isSome = true) →
      sys_exec execveRes mem sz tf = -1) := by
  obtain ⟨plen, hplen⟩ := Option.isSome_iff_exists.mp hpath
  constructor
  · intro n hn hall hterm
    have hloop := execArgs_complete_aux mem sz (tf.reg 2) w n
      (fun i hi => (hall i hi).1) (fun i hi => (hall i hi).2.1)
      (fun i hi => (hall i hi).2.2) hterm hn n 0 (by omega) (by omega)
    rw [sys_exec, hplen]
    simp only [Nat.sub_zero] at hloop
    rw [hloop]
    simp
  · intro hall
    have hloop := execArgs_overflow_aux mem sz (tf.reg 2) w
      (fun i hi => (hall i hi).1) (fun i hi => (hall i hi).2.1)
      (fun i hi => (hall i hi).2.2) MAXARG 0 (by omega) (by omega)
    rw [sys_exec, hplen]
    simp only [Nat.sub_zero] at hloop
    rw [hloop]

/-- Witness for the amended C7 claim: an array of two non-null
string pointers followed by NULL is fully fetched and handed to
execve (which here reports the number of arguments it received). -/
theorem sys_exec_amended_witness :
    sys_exec (fun _ args => (args.length : Int)) memTwoArgs 100 tfExec = 2 := by
  have h := ((sys_exec_amended (fun _ args => (args.length : Int)) memTwoArgs 100
      tfExec (fun _ => 1) (by decide)).1) 2 (by decide) (by decide) (by decide)
  rw [h]
  rfl

/-- The proc_alloc scan preserves the length of the table. -/
theorem proc_alloc_scan_len (k : Option Nat) (npid : Int) :
    ∀ l : List Proc, (proc_alloc_scan k npid l).1.length = l.length := by
  intro l
  induction l with
  | nil => rfl
  | cons p rest ih =>
    simp only [proc_alloc_scan]
    by_cases hs : p.state = .UNUSED
    · rw [if_pos hs]
      cases k with
      | none => simp
      | some stk => simp
    · rw [if_neg hs]
      simpa using ih

/-- When the proc_alloc scan reports an allocated slot, its index is
within the table. -/
theorem proc_alloc_scan_idx (k : Option Nat) (npid : Int) :
    ∀ l : List Proc, ∀ i, (proc_alloc_scan k npid l).2 = some i →
      i < l.length := by
  intro l
  induction l with
  | nil => intro i h; cases h
  | cons p rest ih =>
    intro i h
    simp only [proc_alloc_scan] at h
    by_cases hs : p.state = .UNUSED
    · rw [if_pos hs] at h
      cases k with
      | none => simp at h
      | some stk =>
        simp at h
        simp only [List.length_cons]
        omega
    · rw [if_neg hs] at h
      simp at h
      obtain ⟨j, hj, hji⟩ := h
      have := ih j hj
      simp only [List.length_cons]
      omega

/-- When proc_alloc reports an allocated slot, its index is within
the updated table. -/
theorem proc_alloc_idx (k : Option Nat) (st : KState) (ni : Nat)
    (h : (proc_alloc k st).2 = some ni) :
    ni < (proc_alloc k st).1.ptable.length := by
  rw [proc_alloc] at h ⊢
  rcases hscan : (proc_alloc_scan k (toSigned32 st.nextpid) st.ptable).2 with _ | i
  · rw [hscan] at h
    simp at h
  · rw [hscan] at h
    simp at h
    subst h
    show i < (proc_alloc_scan k (toSigned32 st.nextpid) st.ptable).1.length
    rw [proc_alloc_scan_len]
    exact proc_alloc_scan_idx k (toSigned32 st.nextpid) st.ptable i hscan

/-- Claim C1: when fork succeeds — proc_alloc found a slot and
uvm_copy succeeded — the child's saved trap frame has x0 = 0, so
the child observes fork() == 0 when first scheduled, and fork's
return value is the child slot's pid; when uvm_copy fails after the
allocation, fork returns -1. -/
theorem fork_child_x0_and_pid (kallocRes : Option Nat) (uvmCopyRes : Int)
    (pi : Nat) (st : KState) (ni : Nat)
    (halloc : (proc_alloc kallocRes st).2 = some ni) :
    (0 ≤ uvmCopyRes →
      ((fork kallocRes uvmCopyRes pi st).1.ptable.getD ni default).tf.isSome
        = true ∧
      (((fork kallocRes uvmCopyRes pi st).1.ptable.getD ni default).tf.getD
        ⟨fun _ => 0⟩).x0 = 0 ∧
      (fork kallocRes uvmCopyRes pi st).2 =
        ((fork kallocRes uvmCopyRes pi st).1.ptable.getD ni default).pid) ∧
    (uvmCopyRes < 0 → (fork kallocRes uvmCopyRes pi st).2 = -1) := by
  have hlen := proc_alloc_idx kallocRes st ni halloc
  constructor
  · intro hcopy
    rw [fork, halloc]
    simp only
    rw [if_neg (not_lt.mpr hcopy)]
    simp only
    have hget :
        (((proc_alloc kallocRes st).1.ptable.set ni
          { (proc_alloc kallocRes st).1.ptable.getD ni default with
              sz := ((proc_alloc kallocRes st).1.ptable.getD pi default).sz
              tf := some ⟨fun i => if i = 0 then 0 else
                (((proc_alloc kallocRes st).1.ptable.getD pi default).tf.getD
                  ⟨fun _ => 0⟩).reg i⟩
              ofile := fun i =>
                if i < NOFILE ∧
                    (((proc_alloc kallocRes st).1.ptable.getD pi
                      default).ofile i).isSome
                then ((proc_alloc kallocRes st).1.ptable.getD pi default).ofile i
                else ((proc_alloc kallocRes st).1.ptable.getD ni default).ofile i
              cwd := ((proc_alloc kallocRes st).1.ptable.getD pi default).cwd
              name := strncpy16
                (((proc_alloc kallocRes st).1.ptable.getD pi default).name)
                (((proc_alloc kallocRes st).1.ptable.getD ni default).name)
              parent := some pi
              state := .RUNNABLE }).getD ni default) =
        { (proc_alloc kallocRes st).1.ptable.getD ni default with
            sz := ((proc_alloc kallocRes st).1.ptable.getD pi default).sz
            tf := some ⟨fun i => if i = 0 then 0 else
              (((proc_alloc kallocRes st).1.ptable.getD pi default).tf.getD
                ⟨fun _ => 0⟩).reg i⟩
            ofile := fun i =>
              if i < NOFILE ∧
                  (((proc_alloc kallocRes st).1.ptable.getD pi
                    default).ofile i).isSome
              then ((proc_alloc kallocRes st).1.ptable.getD pi default).ofile i
              else ((proc_alloc kallocRes st).1.ptable.getD ni default).ofile i
            cwd := ((proc_alloc kallocRes st).1.ptable.getD pi default).cwd
            name := strncpy16
              (((proc_alloc kallocRes st).1.ptable.getD pi default).name)
              (((proc_alloc kallocRes st).1.ptable.getD ni default).name)
            parent := some pi
            state := .RUNNABLE } := by
      rw [List.getD_eq_getElem?_getD, List.getElem?_set_self hlen]
      rfl
    rw [hget]
    refine ⟨rfl, ?_, rfl⟩
    simp [Trapframe.x0]
  · intro hcopy
    rw [fork, halloc]
    simp only
    rw [if_pos hcopy]

/-- Witness for C1: a one-slot table with an UNUSED slot, a
successful kalloc and a successful uvm_copy; fork yields a child
whose trap-frame x0 is 0 and returns that child's pid. -/
theorem fork_witness :
    (proc_alloc (some 3) ⟨[default], 1⟩).2 = some 0 ∧
    (((fork (some 3) 0 0 ⟨[default], 1⟩).1.ptable.getD 0 default).tf.isSome
      = true ∧
    ((((fork (some 3) 0 0 ⟨[default], 1⟩).1.ptable.getD 0 default).tf.getD
      ⟨fun _ => 0⟩).x0 = 0 ∧
    (fork (some 3) 0 0 ⟨[default], 1⟩).2 =
      ((fork (some 3) 0 0 ⟨[default], 1⟩).1.ptable.getD 0 default).pid)) := by
  have halloc : (proc_alloc (some 3) ⟨[default], 1⟩).2 = some 0 := by
    rw [proc_alloc]
    rfl
  have h := (fork_child_x0_and_pid (some 3) 0 0 ⟨[default], 1⟩ 0 halloc).1
    (le_refl 0)
  exact ⟨halloc, h.1, h.2.1, h.2.2⟩

end XV6
